import Mathlib

/-!
# Verification of the Homer forwarding proxy (Relay) and the Transmission widget retry

This file gives a shallow embedding, in Lean 4, of the request-handling logic of the
Homer dashboard's forwarding proxy (the standalone production proxy server and, where
relevant, the build-tool middleware variant of the same logic), together with the
Transmission widget's RPC retry helper.  JavaScript strings are modelled as Lean
`String`/`List Char`; JS objects used as header maps are modelled as association lists
in insertion order; the process-wide session-cookie `Map` is an association list with
replace-on-set semantics; the fallible parts (percent decoding, URL parsing) return
`Option`.  The upstream `fetch` call is a parameter of the handler: the handler is a
pure function of the inbound request, the session table, the TLS-environment variable
and the upstream outcome.
-/

namespace Homer

/-! ## Generic list/string utilities mirroring the JavaScript string primitives -/

/-- `leadsWith pat l` is `true` iff `pat` is an initial segment of `l`.
Mirrors JavaScript `String.prototype.startsWith`. -/
def leadsWith : List Char → List Char → Bool
  | [], _ => true
  | _ :: _, [] => false
  | a :: as, b :: bs => a == b && leadsWith as bs

/-- Split a character list on a single-character separator.
Mirrors JavaScript `String.prototype.split` with a one-character separator:
`splitOnCharL ',' "".data = [[]]`, separators at the ends produce empty pieces. -/
def splitOnCharL (sep : Char) : List Char → List (List Char)
  | [] => [[]]
  | c :: rest =>
    match splitOnCharL sep rest with
    | [] => [[c]]
    | h :: t => if c == sep then [] :: h :: t else (c :: h) :: t

/-- Replace the first occurrence of `pat` in a list by `rep`.
Mirrors JavaScript `String.prototype.replace` with a string pattern
(which replaces only the first occurrence). -/
def replaceFirstL (pat rep : List Char) : List Char → List Char
  | [] => if pat.isEmpty then rep else []
  | c :: rest =>
    if leadsWith pat (c :: rest) then rep ++ (c :: rest).drop pat.length
    else c :: replaceFirstL pat rep rest

/-- The characters strictly after the first occurrence of `pat`, if `pat` occurs.
Mirrors locating a literal substring (used to model `new URL(u).host`). -/
def afterSublist (pat : List Char) : List Char → Option (List Char)
  | [] => if pat.isEmpty then some [] else none
  | c :: rest =>
    if leadsWith pat (c :: rest) then some ((c :: rest).drop pat.length)
    else afterSublist pat rest

/-- ASCII lower-casing of a string, mirroring `String.prototype.toLowerCase`
on the ASCII header names it is applied to. -/
def lowerStr (s : String) : String := ⟨s.data.map Char.toLower⟩

/-- JavaScript `a || d` for a possibly-absent string `a`: the default is used
when the value is absent (`undefined`) or falsy (the empty string). -/
def jsOr (v : Option String) (d : String) : String :=
  match v with
  | some s => if s = "" then d else s
  | none => d

/-! ## Percent decoding

Modelled from the spec: the JS builtin `decodeURIComponent` (not part of the
repository sources) — "the path … is percent-decoded if it contains `%`".
Every `%XX` escape is decoded; escaped bytes must form valid (non-overlong,
non-surrogate) UTF-8, otherwise the builtin throws `URIError`, modelled as `none`.
A bare `%` not followed by two hex digits is likewise an error. -/

/-- Value of a hexadecimal digit, upper or lower case. -/
def hexVal (c : Char) : Option Nat :=
  if '0' ≤ c ∧ c ≤ '9' then some (c.toNat - '0'.toNat)
  else if 'a' ≤ c ∧ c ≤ 'f' then some (c.toNat - 'a'.toNat + 10)
  else if 'A' ≤ c ∧ c ≤ 'F' then some (c.toNat - 'A'.toNat + 10)
  else none

/-- Read one `%XX` escape at the head of the list, returning the byte value and
the remainder. -/
def pctByte : List Char → Option (Nat × List Char)
  | '%' :: h1 :: h2 :: rest =>
    match hexVal h1, hexVal h2 with
    | some a, some b => some (16 * a + b, rest)
    | _, _ => none
  | _ => none

/-- A UTF-8 continuation byte read from a `%XX` escape: value in `[0x80, 0xBF]`;
returns its 6 payload bits and the remainder. -/
def pctCont (l : List Char) : Option (Nat × List Char) :=
  match pctByte l with
  | some (b, rest) => if 0x80 ≤ b ∧ b ≤ 0xBF then some (b - 0x80, rest) else none
  | none => none

/-- Fuel-indexed worker for percent decoding (fuel bounds the number of characters
still to be consumed, so `fuel = l.length` always suffices). -/
def percentDecodeAux : Nat → List Char → Option (List Char)
  | _, [] => some []
  | 0, _ :: _ => none
  | fuel + 1, '%' :: h1 :: h2 :: rest =>
    match hexVal h1, hexVal h2 with
    | some a, some b =>
      let n := 16 * a + b
      if n < 0x80 then
        (percentDecodeAux fuel rest).map (Char.ofNat n :: ·)
      else if 0xC2 ≤ n ∧ n ≤ 0xDF then
        match pctCont rest with
        | some (c1, r1) =>
          (percentDecodeAux fuel r1).map (Char.ofNat ((n - 0xC0) * 64 + c1) :: ·)
        | none => none
      else if 0xE0 ≤ n ∧ n ≤ 0xEF then
        match pctCont rest with
        | some (c1, r1) =>
          match pctCont r1 with
          | some (c2, r2) =>
            let cp := (n - 0xE0) * 4096 + c1 * 64 + c2
            if 0x800 ≤ cp ∧ ¬(0xD800 ≤ cp ∧ cp < 0xE000) then
              (percentDecodeAux fuel r2).map (Char.ofNat cp :: ·)
            else none
          | none => none
        | none => none
      else if 0xF0 ≤ n ∧ n ≤ 0xF4 then
        match pctCont rest with
        | some (c1, r1) =>
          match pctCont r1 with
          | some (c2, r2) =>
            match pctCont r2 with
            | some (c3, r3) =>
              let cp := (n - 0xF0) * 262144 + c1 * 4096 + c2 * 64 + c3
              if 0x10000 ≤ cp ∧ cp ≤ 0x10FFFF then
                (percentDecodeAux fuel r3).map (Char.ofNat cp :: ·)
              else none
            | none => none
          | none => none
        | none => none
      else none
    | _, _ => none
  | _ + 1, '%' :: _ => none
  | fuel + 1, c :: rest => (percentDecodeAux fuel rest).map (c :: ·)

/-- Percent-decode a character list (model of `decodeURIComponent`); `none` models
a thrown `URIError`. -/
def percentDecodeL (l : List Char) : Option (List Char) :=
  percentDecodeAux l.length l

/-! ## Target-URL extraction (proxy server, lines 33–68)

`proxyPath = req.originalUrl`; a leading `/` is removed; the fixed routing
marker `api/proxy/` is removed if present; an empty remainder is an error;
the remainder is percent-decoded iff it contains `%`; finally the
single-slash scheme artifact `http:/`…/`https:/`… is repaired. -/

/-- Strip one leading `/` and then one `api/proxy/` routing marker, if present,
from the inbound request path (characters of `req.originalUrl`). -/
def stripPath (p0 : List Char) : List Char :=
  let p1 := if leadsWith "/".data p0 then p0.drop 1 else p0
  if leadsWith "api/proxy/".data p1 then p1.drop "api/proxy/".data.length else p1

/-- `decodeURIComponent(proxyPath)` applied iff the stripped path contains `%`
(`proxyPath.includes("%")`). -/
def decodeTarget (p : List Char) : Option (List Char) :=
  if p.contains '%' then percentDecodeL p else some p

/-- First repair step: if the target starts with `https:/` but not `https://`,
the first occurrence of `https:/` is replaced by `https://`. -/
def fixHttps (t : List Char) : List Char :=
  if leadsWith "https:/".data t && !leadsWith "https://".data t then
    replaceFirstL "https:/".data "https://".data t
  else t

/-- Second repair step: the same for `http:/` / `http://`. -/
def fixHttp (t : List Char) : List Char :=
  if leadsWith "http:/".data t && !leadsWith "http://".data t then
    replaceFirstL "http:/".data "http://".data t
  else t

/-- Repair of the single-slash scheme artifact: the two `if` statements of the
source, run in order. -/
def fixL (t : List Char) : List Char := fixHttp (fixHttps t)

/-- String-level wrapper of `fixL`. -/
def fixUrl (s : String) : String := ⟨fixL s.data⟩

/-- The whole extraction pipeline as one function: `none` when the stripped
path is empty or the percent decoding fails. -/
def extractTarget (originalUrl : String) : Option String :=
  let p2 := stripPath originalUrl.data
  if p2 = [] then none else (decodeTarget p2).map fun l => (⟨l⟩ : String)

/-! ## Target host

Modelled from the spec: `new URL(targetUrl).host` is a JS builtin not in the
repository sources; per the spec's glossary the target host is "the host:port
portion of the decoded target URL".  We read the characters after the first
`://` up to the first `/`, `?` or `#`; an absent `://` or an empty host models
the constructor throwing `TypeError`. -/

/-- Host (`host:port`) portion of an absolute URL, or `none` when the URL does
not parse. -/
def urlHost (u : List Char) : Option (List Char) :=
  match afterSublist "://".data u with
  | none => none
  | some rest =>
    let h := rest.takeWhile fun c => !(c == '/' || c == '?' || c == '#')
    if h = [] then none else some h

/-! ## Header maps and the session-cookie table -/

/-- Look up a header value by exact key in an association list (Node lower-cases
inbound header names, so lookups in the handler use lower-case keys). -/
def lookupHeader (hs : List (String × String)) (k : String) : Option String :=
  (hs.find? fun p => p.1 == k).map (·.2)

/-- Look up an entry of a JS-object header map whose values may be `undefined`
(`none`), as built by `forwardHeaders`. -/
def lookupFwd (hs : List (String × Option String)) (k : String) : Option (Option String) :=
  (hs.find? fun p => p.1 == k).map (·.2)

/-- `sessionCookies.get(host)`. -/
def tableGet (t : List (String × String)) (k : String) : Option String :=
  (t.find? fun p => p.1 == k).map (·.2)

/-- `sessionCookies.set(host, v)`: replace the existing entry for `k` in place,
or append a new one (JS `Map` semantics). -/
def tableSet : List (String × String) → String → String → List (String × String)
  | [], k, v => [(k, v)]
  | (k', v') :: rest, k, v =>
    if k' == k then (k, v) :: rest else (k', v') :: tableSet rest k v

/-- Cookie capture (proxy server, lines 118–129): the combined `set-cookie`
header value is split on `,`, each piece is truncated at its first `;`
(`cookie.split(";")[0]`), and the pieces are joined with `"; "`. -/
def captureCookie (s : String) : String :=
  ⟨List.intercalate "; ".data
    ((splitOnCharL ',' s.data).map fun c => (splitOnCharL ';' c).headD [])⟩

/-- Forwarded-header construction (proxy server, lines 72–97): `user-agent` and
`accept` with falsy-defaulting (`||`), `content-type` assigned unconditionally
(an `undefined` value when the inbound request has none), `authorization` under
a truthiness check, every inbound `x-`-prefixed header verbatim, and the stored
session cookie for the target host under a truthiness check. -/
def forwardHeaders (reqHeaders : List (String × String)) (stored : Option String) :
    List (String × Option String) :=
  [("user-agent", some (jsOr (lookupHeader reqHeaders "user-agent") "Homer-Proxy/1.0")),
   ("accept", some (jsOr (lookupHeader reqHeaders "accept") "*/*")),
   ("content-type", lookupHeader reqHeaders "content-type")]
  ++ (match lookupHeader reqHeaders "authorization" with
      | some v => if v = "" then [] else [("authorization", some v)]
      | none => [])
  ++ (reqHeaders.filter fun p => leadsWith "x-".data p.1.data).map (fun p => (p.1, some p.2))
  ++ (match stored with
      | some c => if c = "" then [] else [("cookie", some c)]
      | none => [])

/-! ## The request handler (proxy server, lines 23–167) -/

/-- The inbound Express request: the three path views used for diagnostics, the
method, the (lower-case-keyed) header map, and the body (already serialized). -/
structure Req where
  originalUrl : String
  path : String
  url : String
  method : String
  headers : List (String × String)
  body : Option String
deriving DecidableEq, Repr

/-- Outcome of the upstream `fetch` call, were it to be made: a response
(status, headers with lower-case names as iterated by `Headers`, raw body
bytes as read by `arrayBuffer`) or a rejection carrying the error message. -/
inductive Upstream where
  | ok (status : Nat) (headers : List (String × String)) (body : List Nat)
  | err (msg : String)
deriving DecidableEq, Repr

/-- Body of the response the handler sends back to the caller. -/
inductive RespBody where
  /-- Raw bytes relayed from the upstream response. -/
  | bytes (b : List Nat)
  /-- `{ error, details }` JSON error payload. -/
  | jsonError (error : String) (details : String)
  /-- The 400 payload `{ error, debug: { path, originalUrl, url } }`. -/
  | missingTarget (error : String) (path originalUrl url : String)
deriving DecidableEq, Repr

/-- The `finally` block restoring `NODE_TLS_REJECT_UNAUTHORIZED`: set it back
when it had a prior value, delete it otherwise. -/
def restoreEnv : Option String → Option String
  | some v => some v
  | none => none

/-- Everything observable about one handled request: the response sent (status,
headers set on it, body), the session table afterwards, the TLS environment
variable afterwards, and the outbound call made (target URL and header object),
if any. -/
structure HResult where
  status : Nat
  headers : List (String × String)
  body : RespBody
  table : List (String × String)
  env : Option String
  called : Option (String × List (String × Option String))
deriving DecidableEq, Repr

/-- One request through the proxy server's middleware, as a pure function of
the prior session table, the prior `NODE_TLS_REJECT_UNAUTHORIZED` value, the
inbound request and the upstream outcome. -/
def handle (table : List (String × String)) (env : Option String) (req : Req)
    (upstream : Upstream) : HResult :=
  let p2 := stripPath req.originalUrl.data
  if p2 = [] then
    { status := 400, headers := [],
      body := .missingTarget "No target URL provided" req.path req.originalUrl req.url,
      table := table, env := env, called := none }
  else
    match decodeTarget p2 with
    | none =>
      -- `decodeURIComponent` throws `URIError: URI malformed`; the outer catch
      -- answers 500 `{ error: "Server error", details: error.message }`.
      { status := 500, headers := [], body := .jsonError "Server error" "URI malformed",
        table := table, env := env, called := none }
    | some t0 =>
      let target := fixL t0
      match urlHost target with
      | none =>
        -- `new URL(targetUrl)` throws `TypeError`; same outer catch.
        { status := 500, headers := [], body := .jsonError "Server error" "Invalid URL",
          table := table, env := env, called := none }
      | some host =>
        let fwd := forwardHeaders req.headers (tableGet table ⟨host⟩)
        match upstream with
        | .err msg =>
          { status := 500, headers := [],
            body := .jsonError "Proxy request failed" msg,
            table := table, env := restoreEnv env, called := some (⟨target⟩, fwd) }
        | .ok st hs b =>
          let table' :=
            match lookupHeader hs "set-cookie" with
            | some sc => if sc = "" then table else tableSet table ⟨host⟩ (captureCookie sc)
            | none => table
          { status := st,
            headers := hs.filter fun p =>
              !(lowerStr p.1 == "content-encoding" || lowerStr p.1 == "transfer-encoding"),
            body := .bytes b,
            table := table', env := restoreEnv env, called := some (⟨target⟩, fwd) }

/-- A concrete well-formed inbound request (used by witnesses). -/
def reqEx : Req :=
  { originalUrl := "/api/proxy/http://example.com/a", path := "/http://example.com/a",
    url := "/api/proxy/http://example.com/a", method := "GET",
    headers := [("cookie", "inbound=1"), ("x-api-key", "k")], body := none }

/-- A concrete inbound request whose stripped path is the lone malformed
escape `%` (used to exercise the decoding-failure path). -/
def reqBad : Req :=
  { originalUrl := "/api/proxy/%", path := "/%", url := "/api/proxy/%",
    method := "GET", headers := [], body := none }

/-- A concrete inbound request whose stripped path is empty. -/
def reqEmpty : Req :=
  { originalUrl := "/api/proxy/", path := "/", url := "/api/proxy/",
    method := "GET", headers := [], body := none }

/-! ## Transmission widget: `transmissionRequest` (Transmission.vue, lines 51–103)

The service mixin's `fetch` helper throws, on a non-success response, an error
object carrying `status`, `headers` (lower-case keys, from
`Object.fromEntries(response.headers.entries())`) and `responseText`.
`transmissionRequest` makes the RPC call; on a 409 it tries to recover a session
id from the `x-transmission-session-id` header or, failing that, by pattern
matching the response text against `/X-Transmission-Session-Id: ([a-zA-Z0-9]+)/`,
and, when one is found, retries exactly once with that id. -/

/-- The error thrown by the service mixin's `fetch` on a non-success response. -/
structure TError where
  status : Nat
  headers : List (String × String)
  responseText : String
deriving DecidableEq, Repr

/-- Outcome of one `this.fetch("/transmission/rpc", options)` call. -/
inductive TFetch (α : Type) where
  | ok (resp : α)
  | err (e : TError)

/-- `true` iff `c` matches the regex class `[a-zA-Z0-9]`. -/
def isAlnum (c : Char) : Bool :=
  ('a' ≤ c && c ≤ 'z') || ('A' ≤ c && c ≤ 'Z') || ('0' ≤ c && c ≤ '9')

/-- First match of `/X-Transmission-Session-Id: ([a-zA-Z0-9]+)/` in a character
list: at each position, if the literal matches and is followed by a nonempty
alphanumeric run, that run is the captured session id. -/
def extractSessionId : List Char → Option (List Char)
  | [] => none
  | c :: rest =>
    if leadsWith "X-Transmission-Session-Id: ".data (c :: rest) then
      let tok := ((c :: rest).drop "X-Transmission-Session-Id: ".data.length).takeWhile isAlnum
      if tok = [] then extractSessionId rest else some tok
    else extractSessionId rest

/-- Session id scraped from `error.responseText` (guarded by its truthiness). -/
def textSid (e : TError) : Option String :=
  if e.responseText = "" then none
  else (extractSessionId e.responseText.data).map fun l => (⟨l⟩ : String)

/-- Session-id recovery for a 409 error: the `x-transmission-session-id` header
if truthy, otherwise the scrape of the response text. -/
def recoverSid (e : TError) : Option String :=
  match lookupHeader e.headers "x-transmission-session-id" with
  | some v => if v = "" then textSid e else some v
  | none => textSid e

/-- Everything observable about one `transmissionRequest` call: the value
returned or error thrown, the widget's `sessionId` afterwards, how many fetches
were made, and the `X-Transmission-Session-Id` header set on the retry, if one
was made. -/
structure TResult (α : Type) where
  result : Except TError α
  sessionId : Option String
  fetchCalls : Nat
  retryHeader : Option String

/-- `transmissionRequest`, as a pure function of the widget's current
`sessionId` and the outcomes the two possible fetches would have. -/
def transmissionRequest {α : Type} (sessionId : Option String)
    (first retry : TFetch α) : TResult α :=
  match first with
  | .ok r => ⟨.ok r, sessionId, 1, none⟩
  | .err e =>
    if e.status = 409 then
      match recoverSid e with
      | some s =>
        match retry with
        | .ok r => ⟨.ok r, some s, 2, some s⟩
        | .err e2 => ⟨.error e2, some s, 2, some s⟩
      | none => ⟨.error e, sessionId, 1, none⟩
    else ⟨.error e, sessionId, 1, none⟩

/-! ## Helper lemmas -/

theorem leadsWith_same_append (p t : List Char) : leadsWith p (p ++ t) = true := by
  induction p with
  | nil => rfl
  | cons a as ih => simp [leadsWith, ih]

theorem replaceFirstL_head (p rep t : List Char) (hp : p ≠ []) :
    replaceFirstL p rep (p ++ t) = rep ++ t := by
  cases p with
  | nil => exact absurd rfl hp
  | cons a as =>
    show replaceFirstL (a :: as) rep (a :: (as ++ t)) = rep ++ t
    rw [replaceFirstL]
    have h1 : leadsWith (a :: as) (a :: (as ++ t)) = true := leadsWith_same_append _ _
    rw [h1, if_pos rfl]
    have h2 : (a :: (as ++ t)).drop (a :: as).length = t := by
      show ((a :: as) ++ t).drop (a :: as).length = t
      exact List.drop_left _ _
    rw [h2]

theorem leadsWith_slash (rest : List Char) (h : rest.head? ≠ some '/') :
    leadsWith ['/'] rest = false := by
  cases rest with
  | nil => rfl
  | cons c cs =>
    have hc : ('/' : Char) ≠ c := fun he => h (by simp [← he])
    simp [leadsWith, beq_eq_false_iff_ne.2 hc]

theorem restoreEnv_id (o : Option String) : restoreEnv o = o := by
  cases o <;> rfl

theorem tableGet_tableSet_self (t : List (String × String)) (k v : String) :
    tableGet (tableSet t k v) k = some v := by
  induction t with
  | nil => simp [tableSet, tableGet, List.find?]
  | cons p rest ih =>
    rcases p with ⟨a, b⟩
    simp only [tableSet]
    by_cases h : a = k
    · rw [if_pos (by simp [h])]
      simp [tableGet, List.find?]
    · rw [if_neg (by simp [h])]
      simp only [tableGet] at ih ⊢
      rw [List.find?_cons_of_neg _ (by simp [h])]
      exact ih

theorem tableGet_tableSet_other (t : List (String × String)) (k k' v : String)
    (h : k' ≠ k) : tableGet (tableSet t k v) k' = tableGet t k' := by
  induction t with
  | nil => simp [tableSet, tableGet, List.find?, beq_eq_false_iff_ne.2 (Ne.symm h)]
  | cons p rest ih =>
    rcases p with ⟨a, b⟩
    simp only [tableSet]
    by_cases hak : a = k
    · rw [if_pos (by simp [hak])]
      subst hak
      simp only [tableGet]
      rw [List.find?_cons_of_neg _ (by simp [Ne.symm h]),
        List.find?_cons_of_neg _ (by simp [Ne.symm h])]
    · rw [if_neg (by simp [hak])]
      by_cases hak' : a = k'
      · subst hak'
        simp only [tableGet]
        rw [List.find?_cons_of_pos _ (by simp), List.find?_cons_of_pos _ (by simp)]
      · simp only [tableGet] at ih ⊢
        rw [List.find?_cons_of_neg _ (by simp [hak']), List.find?_cons_of_neg _ (by simp [hak'])]
        exact ih

theorem handle_empty_spec (table : List (String × String)) (env : Option String)
    (req : Req) (upstream : Upstream) (h : stripPath req.originalUrl.data = []) :
    handle table env req upstream =
      { status := 400, headers := [],
        body := .missingTarget "No target URL provided" req.path req.originalUrl req.url,
        table := table, env := env, called := none } := by
  unfold handle
  rw [if_pos h]

theorem handle_baddecode_spec (table : List (String × String)) (env : Option String)
    (req : Req) (upstream : Upstream)
    (h2 : stripPath req.originalUrl.data ≠ [])
    (h3 : decodeTarget (stripPath req.originalUrl.data) = none) :
    handle table env req upstream =
      { status := 500, headers := [], body := .jsonError "Server error" "URI malformed",
        table := table, env := env, called := none } := by
  unfold handle
  rw [if_neg h2, h3]

theorem handle_badurl_spec (table : List (String × String)) (env : Option String)
    (req : Req) (upstream : Upstream) (t0 : List Char)
    (h2 : stripPath req.originalUrl.data ≠ [])
    (h3 : decodeTarget (stripPath req.originalUrl.data) = some t0)
    (h4 : urlHost (fixL t0) = none) :
    handle table env req upstream =
      { status := 500, headers := [], body := .jsonError "Server error" "Invalid URL",
        table := table, env := env, called := none } := by
  unfold handle
  rw [if_neg h2, h3]
  dsimp only
  rw [h4]

theorem handle_ok_spec (table : List (String × String)) (env : Option String) (req : Req)
    (st : Nat) (hs : List (String × String)) (b : List Nat) (t0 host : List Char)
    (h2 : stripPath req.originalUrl.data ≠ [])
    (h3 : decodeTarget (stripPath req.originalUrl.data) = some t0)
    (h4 : urlHost (fixL t0) = some host) :
    handle table env req (.ok st hs b) =
      { status := st,
        headers := hs.filter fun p =>
          !(lowerStr p.1 == "content-encoding" || lowerStr p.1 == "transfer-encoding"),
        body := .bytes b,
        table :=
          match lookupHeader hs "set-cookie" with
          | some sc => if sc = "" then table else tableSet table ⟨host⟩ (captureCookie sc)
          | none => table,
        env := restoreEnv env,
        called := some (⟨fixL t0⟩, forwardHeaders req.headers (tableGet table ⟨host⟩)) } := by
  unfold handle
  rw [if_neg h2, h3]
  dsimp only
  rw [h4]

theorem handle_err_spec (table : List (String × String)) (env : Option String) (req : Req)
    (msg : String) (t0 host : List Char)
    (h2 : stripPath req.originalUrl.data ≠ [])
    (h3 : decodeTarget (stripPath req.originalUrl.data) = some t0)
    (h4 : urlHost (fixL t0) = some host) :
    handle table env req (.err msg) =
      { status := 500, headers := [],
        body := .jsonError "Proxy request failed" msg,
        table := table, env := restoreEnv env,
        called := some (⟨fixL t0⟩, forwardHeaders req.headers (tableGet table ⟨host⟩)) } := by
  unfold handle
  rw [if_neg h2, h3]
  dsimp only
  rw [h4]

theorem find?_cookie_fwd (reqHeaders : List (String × String)) (stored : Option String) :
    List.find? (fun p => p.1 == "cookie") (forwardHeaders reqHeaders stored) =
      (match stored with
       | some c => if c = "" then none else some ("cookie", some c)
       | none => none) := by
  unfold forwardHeaders
  rw [List.find?_append, List.find?_append, List.find?_append]
  have hA : List.find? (fun p => p.1 == "cookie")
      [("user-agent", some (jsOr (lookupHeader reqHeaders "user-agent") "Homer-Proxy/1.0")),
       ("accept", some (jsOr (lookupHeader reqHeaders "accept") "*/*")),
       ("content-type", lookupHeader reqHeaders "content-type")] = none := by
    rw [List.find?_cons_of_neg _ (by simp), List.find?_cons_of_neg _ (by simp),
      List.find?_cons_of_neg _ (by simp)]
    rfl
  have hB : List.find? (fun p => p.1 == "cookie")
      (match lookupHeader reqHeaders "authorization" with
       | some v => if v = "" then [] else [("authorization", some v)]
       | none => []) = none := by
    cases lookupHeader reqHeaders "authorization" with
    | none => rfl
    | some v =>
      by_cases hv : v = ""
      · simp [hv]
      · simp [hv, List.find?]
  have hC : List.find? (fun p => p.1 == "cookie")
      ((reqHeaders.filter fun p => leadsWith "x-".data p.1.data).map
        fun p => (p.1, some p.2)) = none := by
    rw [List.find?_eq_none]
    intro p hp
    simp only [List.mem_map, List.mem_filter] at hp
    obtain ⟨q, ⟨hqmem, hqx⟩, rfl⟩ := hp
    intro hcook
    have hq1 : q.1 = "cookie" := by simpa using hcook
    rw [hq1] at hqx
    exact absurd hqx (by decide)
  rw [hA, hB, hC]
  simp only [Option.none_or]
  cases stored with
  | none => rfl
  | some c =>
    by_cases hc : c = ""
    · simp [hc]
    · simp [hc, List.find?]

/-! ## Claims -/

/-- C3: the target URL is derived from the inbound path by stripping one
leading `/`, stripping the `api/proxy/` routing marker if present, then
percent-decoding the remainder if and only if it contains `%`; the inbound
path `/api/proxy/https%3A%2F%2Fexample.com%2Fstatus` yields the target
`https://example.com/status`. -/
theorem target_extraction_correct :
    extractTarget "/api/proxy/https%3A%2F%2Fexample.com%2Fstatus" =
      some "https://example.com/status" ∧
    (∀ p : List Char, stripPath p ≠ [] → (stripPath p).contains '%' = false →
      extractTarget ⟨p⟩ = some ⟨stripPath p⟩) ∧
    (∀ p : List Char, stripPath p ≠ [] → (stripPath p).contains '%' = true →
      extractTarget ⟨p⟩ = (percentDecodeL (stripPath p)).map fun l => (⟨l⟩ : String)) := by
  refine ⟨by decide, ?_, ?_⟩
  · intro p h1 h2
    show (let p2 := stripPath p; if p2 = [] then none else (decodeTarget p2).map fun l => (⟨l⟩ : String)) =
      some ⟨stripPath p⟩
    rw [if_neg h1]
    unfold decodeTarget
    rw [h2]
    rfl
  · intro p h1 h2
    show (let p2 := stripPath p; if p2 = [] then none else (decodeTarget p2).map fun l => (⟨l⟩ : String)) =
      (percentDecodeL (stripPath p)).map fun l => (⟨l⟩ : String)
    rw [if_neg h1]
    unfold decodeTarget
    rw [h2]
    rfl

/-- Witness for C3 at a concrete undecoded input. -/
theorem target_extraction_correct_witness :
    extractTarget ⟨"/api/proxy/http://example.com/a".data⟩ =
      some ⟨stripPath "/api/proxy/http://example.com/a".data⟩ :=
  target_extraction_correct.2.1 "/api/proxy/http://example.com/a".data (by decide) (by decide)

/-- C4: a derived target beginning with the malformed single-slash scheme
`http:/` or `https:/` (not followed by a second slash) is corrected to the
canonical double-slash form; in particular `https:/example.com/status` becomes
`https://example.com/status`. -/
theorem malformed_scheme_corrected :
    (∀ rest : List Char, rest.head? ≠ some '/' →
      fixL ("https:/".data ++ rest) = "https://".data ++ rest) ∧
    (∀ rest : List Char, rest.head? ≠ some '/' →
      fixL ("http:/".data ++ rest) = "http://".data ++ rest) ∧
    fixUrl "https:/example.com/status" = "https://example.com/status" := by
  refine ⟨?_, ?_, by decide⟩
  · intro rest h
    have e1 : leadsWith "https:/".data ("https:/".data ++ rest) = true :=
      leadsWith_same_append _ _
    have e2 : leadsWith "https://".data ("https:/".data ++ rest) = false := by
      show leadsWith ('h' :: 't' :: 't' :: 'p' :: 's' :: ':' :: '/' :: '/' :: [])
        ('h' :: 't' :: 't' :: 'p' :: 's' :: ':' :: '/' :: rest) = false
      simp [leadsWith, leadsWith_slash rest h]
    have e3 : replaceFirstL "https:/".data "https://".data ("https:/".data ++ rest) =
        "https://".data ++ rest := replaceFirstL_head _ _ _ (by decide)
    have e4 : leadsWith "http:/".data ("https://".data ++ rest) = false := by
      show leadsWith ('h' :: 't' :: 't' :: 'p' :: ':' :: '/' :: [])
        ('h' :: 't' :: 't' :: 'p' :: 's' :: ':' :: '/' :: '/' :: rest) = false
      simp [leadsWith]
    have s1 : fixHttps ("https:/".data ++ rest) = "https://".data ++ rest := by
      unfold fixHttps
      rw [e1, e2, if_pos (by decide : ((true && !false) = true)), e3]
    have s2 : fixHttp ("https://".data ++ rest) = "https://".data ++ rest := by
      unfold fixHttp
      rw [e4, Bool.false_and, if_neg (by decide : ¬(false = true))]
    unfold fixL
    rw [s1, s2]
  · intro rest h
    have e1 : leadsWith "https:/".data ("http:/".data ++ rest) = false := by
      show leadsWith ('h' :: 't' :: 't' :: 'p' :: 's' :: ':' :: '/' :: [])
        ('h' :: 't' :: 't' :: 'p' :: ':' :: '/' :: rest) = false
      simp [leadsWith]
    have e2 : leadsWith "http:/".data ("http:/".data ++ rest) = true :=
      leadsWith_same_append _ _
    have e3 : leadsWith "http://".data ("http:/".data ++ rest) = false := by
      show leadsWith ('h' :: 't' :: 't' :: 'p' :: ':' :: '/' :: '/' :: [])
        ('h' :: 't' :: 't' :: 'p' :: ':' :: '/' :: rest) = false
      simp [leadsWith, leadsWith_slash rest h]
    have e4 : replaceFirstL "http:/".data "http://".data ("http:/".data ++ rest) =
        "http://".data ++ rest := replaceFirstL_head _ _ _ (by decide)
    have s1 : fixHttps ("http:/".data ++ rest) = "http:/".data ++ rest := by
      unfold fixHttps
      rw [e1, Bool.false_and, if_neg (by decide : ¬(false = true))]
    have s2 : fixHttp ("http:/".data ++ rest) = "http://".data ++ rest := by
      unfold fixHttp
      rw [e2, e3, if_pos (by decide : ((true && !false) = true)), e4]
    unfold fixL
    rw [s1, s2]

/-- Witness for C4 at a concrete host tail. -/
theorem malformed_scheme_corrected_witness :
    fixL ("https:/".data ++ "example.org".data) = "https://".data ++ "example.org".data :=
  malformed_scheme_corrected.1 "example.org".data (by decide)

/-- C8: for every proxied call, successful or failed, the
`NODE_TLS_REJECT_UNAUTHORIZED` setting observed after the call equals its
value from before the call (restored if it had one, removed if it had none). -/
theorem tls_env_restored (table : List (String × String)) (env : Option String)
    (req : Req) (upstream : Upstream) : (handle table env req upstream).env = env := by
  by_cases h2 : stripPath req.originalUrl.data = []
  · rw [handle_empty_spec table env req upstream h2]
  · cases h3 : decodeTarget (stripPath req.originalUrl.data) with
    | none => rw [handle_baddecode_spec table env req upstream h2 h3]
    | some t0 =>
      cases h4 : urlHost (fixL t0) with
      | none => rw [handle_badurl_spec table env req upstream t0 h2 h3 h4]
      | some host =>
        cases upstream with
        | err msg =>
          rw [handle_err_spec table env req msg t0 host h2 h3 h4]
          exact restoreEnv_id env
        | ok st hs b =>
          rw [handle_ok_spec table env req st hs b t0 host h2 h3 h4]
          exact restoreEnv_id env

/-- C9: a request whose outbound forwarding call fails leaves the session
table exactly as it was: no entry is created, overwritten or emptied. -/
theorem failed_call_preserves_table (table : List (String × String))
    (env : Option String) (req : Req) (msg : String) :
    (handle table env req (.err msg)).table = table := by
  by_cases h2 : stripPath req.originalUrl.data = []
  · rw [handle_empty_spec table env req (.err msg) h2]
  · cases h3 : decodeTarget (stripPath req.originalUrl.data) with
    | none => rw [handle_baddecode_spec table env req (.err msg) h2 h3]
    | some t0 =>
      cases h4 : urlHost (fixL t0) with
      | none => rw [handle_badurl_spec table env req (.err msg) t0 h2 h3 h4]
      | some host => rw [handle_err_spec table env req msg t0 host h2 h3 h4]

/-- C10: one `transmissionRequest` call makes at most one retry: a first
failure with status 409 and a recoverable session id leads to exactly one
retry carrying that session id, whose outcome (success or failure) is
returned as is; with no recoverable session id, or a non-409 failure, the
error propagates after the single fetch. -/
theorem transmission_single_retry {α : Type} (sid : Option String)
    (first retry : TFetch α) :
    (transmissionRequest sid first retry).fetchCalls ≤ 2 ∧
    (∀ e s, first = .err e → e.status = 409 → recoverSid e = some s →
      (transmissionRequest sid first retry).fetchCalls = 2 ∧
      (transmissionRequest sid first retry).retryHeader = some s ∧
      (transmissionRequest sid first retry).sessionId = some s ∧
      (∀ r, retry = .ok r → (transmissionRequest sid first retry).result = .ok r) ∧
      (∀ e2, retry = .err e2 → (transmissionRequest sid first retry).result = .error e2)) ∧
    (∀ e, first = .err e → e.status = 409 → recoverSid e = none →
      (transmissionRequest sid first retry).result = .error e ∧
      (transmissionRequest sid first retry).fetchCalls = 1) ∧
    (∀ e, first = .err e → e.status ≠ 409 →
      (transmissionRequest sid first retry).result = .error e ∧
      (transmissionRequest sid first retry).fetchCalls = 1) := by
  refine ⟨?_, ?_, ?_, ?_⟩
  · cases first with
    | ok r => simp [transmissionRequest]
    | err e =>
      simp only [transmissionRequest]
      split
      · cases recoverSid e with
        | some s => cases retry <;> simp
        | none => simp
      · simp
  · rintro e s rfl h9 hrec
    cases retry with
    | ok r => simp [transmissionRequest, h9, hrec]
    | err e2 => simp [transmissionRequest, h9, hrec]
  · rintro e rfl h9 hrec
    simp [transmissionRequest, h9, hrec]
  · rintro e rfl h9
    simp [transmissionRequest, h9]

/-- Witness for C10: a 409 with a recoverable header session id is retried
once with that id and the retry's success is returned. -/
theorem transmission_single_retry_witness :
    (transmissionRequest (α := Nat) none
      (.err ⟨409, [("x-transmission-session-id", "abc")], ""⟩) (.ok 5)).fetchCalls = 2 ∧
    (transmissionRequest (α := Nat) none
      (.err ⟨409, [("x-transmission-session-id", "abc")], ""⟩) (.ok 5)).retryHeader = some "abc" ∧
    (transmissionRequest (α := Nat) none
      (.err ⟨409, [("x-transmission-session-id", "abc")], ""⟩) (.ok 5)).result = .ok 5 := by
  have h := (transmission_single_retry (α := Nat) none
    (.err ⟨409, [("x-transmission-session-id", "abc")], ""⟩) (.ok 5)).2.1
    ⟨409, [("x-transmission-session-id", "abc")], ""⟩ "abc" rfl rfl (by decide)
  exact ⟨h.1, h.2.1, h.2.2.2.1 5 rfl⟩

/-- C1 counterexample: the comma-split pieces of the combined `Set-Cookie`
value keep their leading space, so `a=1; Path=/, b=2; Path=/` is stored as
`a=1;␣␣b=2` (two spaces), not `a=1; b=2`. -/
theorem cookie_capture_counterexample :
    captureCookie "a=1; Path=/, b=2; Path=/" ≠ "a=1; b=2" := by decide

/-- C1 (amended): a response bearing a nonempty `Set-Cookie` value stores for
its target host exactly the comma-split pieces truncated at their first `;`
(keeping any leading space the split leaves) joined with `; `, replacing any
previous entry for that host; `a=1; Path=/, b=2; Path=/` stores `a=1;  b=2`
(double space) and a later `a=3` overwrites the entry to exactly `a=3`. -/
theorem cookie_capture_amended :
    captureCookie "a=1; Path=/, b=2; Path=/" = "a=1;  b=2" ∧
    captureCookie "a=3" = "a=3" ∧
    (∀ table host v, tableGet (tableSet table host v) host = some v) ∧
    (∀ table host v h', h' ≠ host → tableGet (tableSet table host v) h' = tableGet table h') ∧
    (∀ (table : List (String × String)) (env : Option String) (req : Req)
       (st : Nat) (hs : List (String × String)) (b : List Nat) (t0 host : List Char)
       (sc : String),
      stripPath req.originalUrl.data ≠ [] →
      decodeTarget (stripPath req.originalUrl.data) = some t0 →
      urlHost (fixL t0) = some host →
      lookupHeader hs "set-cookie" = some sc → sc ≠ "" →
      (handle table env req (.ok st hs b)).table = tableSet table ⟨host⟩ (captureCookie sc)) := by
  refine ⟨by decide, by decide, tableGet_tableSet_self,
    fun table host v h' h => tableGet_tableSet_other table host h' v h, ?_⟩
  intro table env req st hs b t0 host sc h2 h3 h4 hsc hne
  rw [handle_ok_spec table env req st hs b t0 host h2 h3 h4]
  show (match lookupHeader hs "set-cookie" with
        | some sc => if sc = "" then table else tableSet table ⟨host⟩ (captureCookie sc)
        | none => table) = tableSet table ⟨host⟩ (captureCookie sc)
  rw [hsc]
  exact if_neg hne

/-- Witness for C1 (amended) on a concrete request and response. -/
theorem cookie_capture_amended_witness :
    (handle [] none reqEx (.ok 200 [("set-cookie", "a=3")] [])).table =
      tableSet [] "example.com" (captureCookie "a=3") :=
  cookie_capture_amended.2.2.2.2 [] none reqEx 200 [("set-cookie", "a=3")] []
    "http://example.com/a".data "example.com".data "a=3"
    (by decide) (by decide) (by decide) rfl (by decide)

/-- C2 counterexample: a host can have an entry in the session table that is
the empty string (captured from a degenerate `Set-Cookie`), and then no
`cookie` header at all is injected, contradicting "carries a cookie header
equal to the stored value verbatim" for every existing entry. -/
theorem cookie_injection_counterexample :
    tableGet [("example.com", "")] "example.com" = some "" ∧
    lookupFwd (forwardHeaders [("cookie", "inbound=1")]
      (tableGet [("example.com", "")] "example.com")) "cookie" = none := by decide

/-- C2 (amended): the `cookie` header of the outgoing request is determined by
the session-table entry alone — equal to the stored value when a nonempty
entry exists, and absent when there is no entry or the entry is empty — so the
inbound request's own cookie header is never forwarded and never merged; and
the handler's outbound call indeed uses `forwardHeaders` applied to the stored
entry for the target host. -/
theorem cookie_injection_amended :
    (∀ (reqHeaders : List (String × String)) (stored : Option String),
      lookupFwd (forwardHeaders reqHeaders stored) "cookie" =
        (match stored with
         | some v => if v = "" then none else some (some v)
         | none => none)) ∧
    (∀ (table : List (String × String)) (env : Option String) (req : Req)
       (st : Nat) (hs : List (String × String)) (b : List Nat) (t0 host : List Char),
      stripPath req.originalUrl.data ≠ [] →
      decodeTarget (stripPath req.originalUrl.data) = some t0 →
      urlHost (fixL t0) = some host →
      (handle table env req (.ok st hs b)).called =
        some (⟨fixL t0⟩, forwardHeaders req.headers (tableGet table ⟨host⟩))) := by
  constructor
  · intro reqHeaders stored
    unfold lookupFwd
    rw [find?_cookie_fwd]
    cases stored with
    | none => rfl
    | some c =>
      by_cases hc : c = ""
      · simp [hc]
      · simp [hc]
  · intro table env req st hs b t0 host h2 h3 h4
    rw [handle_ok_spec table env req st hs b t0 host h2 h3 h4]

/-- Witness for C2 (amended) on a concrete request with a stored cookie. -/
theorem cookie_injection_amended_witness :
    (handle [("example.com", "a=3")] none reqEx (.ok 200 [] [])).called =
      some ("http://example.com/a",
        forwardHeaders reqEx.headers (tableGet [("example.com", "a=3")] "example.com")) :=
  cookie_injection_amended.2 [("example.com", "a=3")] none reqEx 200 [] []
    "http://example.com/a".data "example.com".data (by decide) (by decide) (by decide)

/-- C5 counterexample: a malformed percent-encoding (`/api/proxy/%`) is an
extraction failure but is answered with status 500 (generic server error),
not a 400-equivalent `MissingTarget` result. -/
theorem missing_target_counterexample :
    (handle [] none reqBad (.err "net")).status = 500 ∧
    (handle [] none reqBad (.err "net")).status ≠ 400 ∧
    (handle [] none reqBad (.err "net")).called = none := by decide

/-- C5 (amended): an empty path after prefix stripping yields a 400 response
with error `No target URL provided` and debug detail echoing the inbound
path, with no outbound call; a malformed percent-encoding instead falls to
the generic handler and yields a 500 `Server error` response, also with no
outbound call and no session-table change. -/
theorem missing_target_amended :
    (∀ (table : List (String × String)) (env : Option String) (req : Req)
       (upstream : Upstream), stripPath req.originalUrl.data = [] →
      handle table env req upstream =
        { status := 400, headers := [],
          body := .missingTarget "No target URL provided" req.path req.originalUrl req.url,
          table := table, env := env, called := none }) ∧
    (∀ (table : List (String × String)) (env : Option String) (req : Req)
       (upstream : Upstream), stripPath req.originalUrl.data ≠ [] →
      decodeTarget (stripPath req.originalUrl.data) = none →
      (handle table env req upstream).status = 500 ∧
      (handle table env req upstream).body = .jsonError "Server error" "URI malformed" ∧
      (handle table env req upstream).called = none ∧
      (handle table env req upstream).table = table) := by
  constructor
  · intro table env req upstream h
    exact handle_empty_spec table env req upstream h
  · intro table env req upstream h2 h3
    rw [handle_baddecode_spec table env req upstream h2 h3]
    exact ⟨rfl, rfl, rfl, rfl⟩

/-- Witness for C5 (amended) on a concrete empty-path request. -/
theorem missing_target_amended_witness :
    handle [] none reqEmpty (.err "net") =
      { status := 400, headers := [],
        body := .missingTarget "No target URL provided" reqEmpty.path reqEmpty.originalUrl
          reqEmpty.url,
        table := [], env := none, called := none } :=
  missing_target_amended.1 [] none reqEmpty (.err "net") (by decide)

/-- C6: for every successful upstream response the relayed response keeps the
upstream status, carries the upstream body bytes unchanged, and carries
exactly the upstream headers whose lower-cased name is neither
`content-encoding` nor `transfer-encoding`. -/
theorem response_relay_correct (table : List (String × String)) (env : Option String)
    (req : Req) (st : Nat) (hs : List (String × String)) (b : List Nat)
    (t0 host : List Char)
    (h2 : stripPath req.originalUrl.data ≠ [])
    (h3 : decodeTarget (stripPath req.originalUrl.data) = some t0)
    (h4 : urlHost (fixL t0) = some host) :
    (handle table env req (.ok st hs b)).status = st ∧
    (handle table env req (.ok st hs b)).body = .bytes b ∧
    (∀ p : String × String, p ∈ (handle table env req (.ok st hs b)).headers ↔
      (p ∈ hs ∧ lowerStr p.1 ≠ "content-encoding" ∧ lowerStr p.1 ≠ "transfer-encoding")) := by
  rw [handle_ok_spec table env req st hs b t0 host h2 h3 h4]
  refine ⟨rfl, rfl, ?_⟩
  intro p
  simp only [List.mem_filter, Bool.not_eq_true', Bool.or_eq_false_iff, beq_eq_false_iff_ne,
    ne_eq, and_assoc]

/-- Witness for C6 on a concrete request and upstream response. -/
theorem response_relay_correct_witness :
    (handle [] none reqEx (.ok 200 [("a", "1")] [7, 0, 255])).status = 200 ∧
    (handle [] none reqEx (.ok 200 [("a", "1")] [7, 0, 255])).body = .bytes [7, 0, 255] ∧
    (∀ p : String × String, p ∈ (handle [] none reqEx (.ok 200 [("a", "1")] [7, 0, 255])).headers ↔
      (p ∈ [("a", "1")] ∧ lowerStr p.1 ≠ "content-encoding" ∧
        lowerStr p.1 ≠ "transfer-encoding")) :=
  response_relay_correct [] none reqEx 200 [("a", "1")] [7, 0, 255]
    "http://example.com/a".data "example.com".data (by decide) (by decide) (by decide)

/-- C7 counterexample: an inbound request with no `content-type` header still
produces a forwarded-header object containing a `content-type` key (with an
undefined value, which JS `fetch` transmits as the literal string
`undefined`), so `content-type` is not forwarded "only if present". -/
theorem header_allowlist_counterexample :
    ("content-type", (none : Option String)) ∈ forwardHeaders [] none ∧
    lookupHeader [] "content-type" = none := by decide

/-- C7 (amended): the forwarded headers are exactly: `user-agent` (inbound
value, default `Homer-Proxy/1.0` when absent or empty), `accept` (inbound
value, default `*/*` when absent or empty), `content-type` always included
with the inbound value (undefined-valued when the inbound request has none),
`authorization` only when present and nonempty, every inbound `x-` header
verbatim, and the session cookie per the cookie rule; no other header. -/
theorem header_allowlist_amended :
    (∀ (reqHeaders : List (String × String)) (stored : Option String)
       (p : String × Option String), p ∈ forwardHeaders reqHeaders stored →
      p.1 = "user-agent" ∨ p.1 = "accept" ∨ p.1 = "content-type" ∨
      p.1 = "authorization" ∨ p.1 = "cookie" ∨ leadsWith "x-".data p.1.data = true) ∧
    (∀ reqHeaders stored, lookupFwd (forwardHeaders reqHeaders stored) "user-agent" =
      some (some (jsOr (lookupHeader reqHeaders "user-agent") "Homer-Proxy/1.0"))) ∧
    (∀ reqHeaders stored, lookupFwd (forwardHeaders reqHeaders stored) "accept" =
      some (some (jsOr (lookupHeader reqHeaders "accept") "*/*"))) ∧
    (∀ reqHeaders stored, lookupFwd (forwardHeaders reqHeaders stored) "content-type" =
      some (lookupHeader reqHeaders "content-type")) ∧
    (∀ reqHeaders stored v, lookupHeader reqHeaders "authorization" = some v → v ≠ "" →
      lookupFwd (forwardHeaders reqHeaders stored) "authorization" = some (some v)) ∧
    (∀ reqHeaders stored, (lookupHeader reqHeaders "authorization" = none ∨
        lookupHeader reqHeaders "authorization" = some "") →
      ∀ p : String × Option String, p ∈ forwardHeaders reqHeaders stored →
        p.1 ≠ "authorization") ∧
    (∀ (reqHeaders : List (String × String)) (stored : Option String) (k v : String),
      (k, v) ∈ reqHeaders → leadsWith "x-".data k.data = true →
      (k, some v) ∈ forwardHeaders reqHeaders stored) := by
  refine ⟨?_, ?_, ?_, ?_, ?_, ?_, ?_⟩
  · intro reqHeaders stored p hp
    unfold forwardHeaders at hp
    simp only [List.mem_append] at hp
    rcases hp with ((hp | hp) | hp) | hp
    · simp only [List.mem_cons, List.mem_singleton] at hp
      rcases hp with rfl | rfl | rfl | h
      · exact Or.inl rfl
      · exact Or.inr (Or.inl rfl)
      · exact Or.inr (Or.inr (Or.inl rfl))
      · exact absurd h (List.not_mem_nil p)
    · revert hp
      cases lookupHeader reqHeaders "authorization" with
      | none => intro hp; exact absurd hp (List.not_mem_nil p)
      | some v =>
        dsimp only
        by_cases hv : v = ""
        · rw [if_pos hv]
          intro hp
          exact absurd hp (List.not_mem_nil p)
        · rw [if_neg hv]
          intro hp
          rw [List.mem_singleton] at hp
          subst hp
          exact Or.inr (Or.inr (Or.inr (Or.inl rfl)))
    · simp only [List.mem_map, List.mem_filter] at hp
      obtain ⟨q, ⟨_, hqx⟩, rfl⟩ := hp
      exact Or.inr (Or.inr (Or.inr (Or.inr (Or.inr hqx))))
    · revert hp
      cases stored with
      | none => intro hp; exact absurd hp (List.not_mem_nil p)
      | some c =>
        dsimp only
        by_cases hc : c = ""
        · rw [if_pos hc]
          intro hp
          exact absurd hp (List.not_mem_nil p)
        · rw [if_neg hc]
          intro hp
          rw [List.mem_singleton] at hp
          subst hp
          exact Or.inr (Or.inr (Or.inr (Or.inr (Or.inl rfl))))
  · intro reqHeaders stored
    unfold forwardHeaders lookupFwd
    rw [List.find?_append, List.find?_append, List.find?_append]
    rw [List.find?_cons_of_pos _ (by simp)]
    rfl
  · intro reqHeaders stored
    unfold forwardHeaders lookupFwd
    rw [List.find?_append, List.find?_append, List.find?_append]
    rw [List.find?_cons_of_neg _ (by simp), List.find?_cons_of_pos _ (by simp)]
    rfl
  · intro reqHeaders stored
    unfold forwardHeaders lookupFwd
    rw [List.find?_append, List.find?_append, List.find?_append]
    rw [List.find?_cons_of_neg _ (by simp), List.find?_cons_of_neg _ (by simp),
      List.find?_cons_of_pos _ (by simp)]
    rfl
  · intro reqHeaders stored v hv hne
    unfold forwardHeaders lookupFwd
    rw [List.find?_append, List.find?_append, List.find?_append]
    rw [List.find?_cons_of_neg _ (by simp), List.find?_cons_of_neg _ (by simp),
      List.find?_cons_of_neg _ (by simp), hv]
    dsimp only
    rw [if_neg hne, List.find?_cons_of_pos _ (by simp)]
    rfl
  · intro reqHeaders stored hcond p hp
    have hB : (match lookupHeader reqHeaders "authorization" with
               | some v => if v = "" then [] else [("authorization", some v)]
               | none => []) = ([] : List (String × Option String)) := by
      rcases hcond with h | h
      · rw [h]
      · rw [h]
        rfl
    unfold forwardHeaders at hp
    rw [hB] at hp
    simp only [List.mem_append] at hp
    rcases hp with ((hp | hp) | hp) | hp
    · simp only [List.mem_cons, List.mem_singleton] at hp
      rcases hp with rfl | rfl | rfl | h
      · simp
      · simp
      · simp
      · exact absurd h (List.not_mem_nil p)
    · exact absurd hp (List.not_mem_nil p)
    · simp only [List.mem_map, List.mem_filter] at hp
      obtain ⟨q, ⟨_, hqx⟩, rfl⟩ := hp
      intro hq1
      rw [hq1] at hqx
      exact absurd hqx (by decide)
    · revert hp
      cases stored with
      | none => intro hp; exact absurd hp (List.not_mem_nil p)
      | some c =>
        dsimp only
        by_cases hc : c = ""
        · rw [if_pos hc]
          intro hp
          exact absurd hp (List.not_mem_nil p)
        · rw [if_neg hc]
          intro hp
          rw [List.mem_singleton] at hp
          subst hp
          simp
  · intro reqHeaders stored k v hmem hx
    unfold forwardHeaders
    simp only [List.mem_append]
    refine Or.inl (Or.inr ?_)
    simp only [List.mem_map, List.mem_filter]
    exact ⟨(k, v), ⟨hmem, hx⟩, rfl⟩

/-- Witness for C7 (amended): a present, nonempty `authorization` header is
forwarded. -/
theorem header_allowlist_amended_witness :
    lookupFwd (forwardHeaders [("authorization", "Basic abc")] none) "authorization" =
      some (some "Basic abc") :=
  header_allowlist_amended.2.2.2.2.1 [("authorization", "Basic abc")] none "Basic abc"
    rfl (by decide)

end Homer
